import Mathlib

/-!
Verification of `recognai/models.py` (`SequenceClassifier`, an AllenNLP model).

Shallow embedding: tensors are (nested) lists of rationals, `LongTensor`s are
lists of integers.  Framework-provided numeric primitives that involve real
arithmetic (the exponential inside `F.softmax`, and `torch.nn.CrossEntropyLoss`)
are abstracted into a `Torch` record of functions; everything else the file
touches (the label vocabulary, `torch.nn.Linear`, `numpy.argmax`, Python `dict`
update semantics, the `CategoricalAccuracy` metric) is modelled concretely.
Python exceptions are modelled with `Except PyError`.
-/

namespace Recognai

/-- A 1-dimensional float tensor: a list of values. -/
abbrev Tensor1 := List Rat

/-- A 2-dimensional float tensor: batch of rows. -/
abbrev Tensor2 := List (List Rat)

/-- A 3-dimensional float tensor, e.g. (batch, sequence, embedding dim). -/
abbrev Tensor3 := List (List (List Rat))

/-- A 2-dimensional `LongTensor` of integer ids. -/
abbrev LongTensor2 := List (List Int)

/-- The `tokens` argument of `forward`: the output of `TextField.as_array()`,
a dictionary mapping token-indexer names to id tensors. -/
abbrev TokenDict := List (String × LongTensor2)

/-- Integer tensors of rank 1 or 2, as produced by `label.squeeze(-1)`. -/
inductive IntTensor where
  | dim1 (xs : List Int)
  | dim2 (t : List (List Int))
deriving DecidableEq, Repr

/-- Torch `t.view(-1)`: flatten a 2-d integer tensor (row-major). -/
def viewFlatten (t : LongTensor2) : List Int := t.flatten

/-- Torch `t.squeeze(-1)`: drop the last dimension when its size is 1,
otherwise return the tensor unchanged. -/
def squeezeLast (t : LongTensor2) : IntTensor :=
  if t.all (fun r => r.length = 1) then .dim1 (t.filterMap List.head?) else .dim2 t

/-- Dot product of two rows (extra entries of the longer row are ignored,
as only equal-length rows arise). -/
def dot (xs ys : List Rat) : Rat :=
  ((xs.zip ys).map (fun p => p.1 * p.2)).sum

/-- The layer `torch.nn.modules.linear.Linear`: an affine map given by a weight matrix
of shape (out_features, in_features) and a bias vector of length out_features. -/
structure Linear where
  weight : Tensor2
  bias : Tensor1

/-- Apply a `Linear` layer to a single input row: one output entry per
(weight row, bias entry) pair. -/
def Linear.applyRow (l : Linear) (x : Tensor1) : Tensor1 :=
  (l.weight.zip l.bias).map (fun wb => dot wb.1 x + wb.2)

/-- Apply a `Linear` layer to a batch of rows. -/
def Linear.apply (l : Linear) (t : Tensor2) : Tensor2 :=
  t.map l.applyRow

/-- The model's `Vocabulary`, restricted to the single namespace the file
uses, `"labels"`: the list of label strings, position = index. -/
structure Vocabulary where
  labels : List String
deriving DecidableEq, Repr

/-- The call `vocab.get_vocab_size("labels")`. -/
def Vocabulary.get_vocab_size (v : Vocabulary) : Nat := v.labels.length

/-- The call `vocab.get_token_from_index(i, namespace="labels")`; `none` models the
`KeyError` raised on an out-of-range index. -/
def Vocabulary.get_token_from_index (v : Vocabulary) (i : Nat) : Option String :=
  v.labels[i]?

/-- An AllenNLP `TextFieldEmbedder`: an embedding function together with its
declared output dimension. -/
structure TextFieldEmbedder where
  run : TokenDict → Tensor3
  output_dim : Nat

/-- The call `text_field_embedder.get_output_dim()`. -/
def TextFieldEmbedder.get_output_dim (e : TextFieldEmbedder) : Nat := e.output_dim

/-- An AllenNLP `Seq2VecEncoder`: an encoding function (taking the embedded
text and the mask) together with its declared input and output dimensions. -/
structure Seq2VecEncoder where
  run : Tensor3 → LongTensor2 → Tensor2
  input_dim : Nat
  output_dim : Nat

/-- The call `encoder.get_input_dim()`. -/
def Seq2VecEncoder.get_input_dim (e : Seq2VecEncoder) : Nat := e.input_dim

/-- The call `encoder.get_output_dim()`. -/
def Seq2VecEncoder.get_output_dim (e : Seq2VecEncoder) : Nat := e.output_dim

/-- The framework function `allennlp.nn.util.get_text_field_mask`, modelled: the padding mask derived
from the first id tensor of the dictionary, 1 where the id is nonzero. Its
value is opaque to every property proved below; only the fact that `forward`
feeds exactly `get_text_field_mask tokens` to the encoder matters. -/
def get_text_field_mask (tokens : TokenDict) : LongTensor2 :=
  match tokens with
  | [] => []
  | (_, t) :: _ => t.map (fun row => row.map (fun x => if x ≠ 0 then 1 else 0))

/-- One row of `F.softmax`: exponentiate (with the supplied exponential
function) and normalise. -/
def softmaxRow (expFn : Rat → Rat) (xs : List Rat) : List Rat :=
  let es := xs.map expFn
  let s := es.sum
  es.map (fun e => e / s)

/-- Torch `F.softmax` applied to a 2-d tensor: row-wise softmax (old-style default
dimension for a 2-d input). -/
def softmax (expFn : Rat → Rat) (t : Tensor2) : Tensor2 :=
  t.map (softmaxRow expFn)

/-- The framework-provided numeric primitives the file delegates to, abstracted:
the exponential used by `F.softmax` and `torch.nn.CrossEntropyLoss` (taking the
logits and the flattened gold labels). -/
structure Torch where
  exp : Rat → Rat
  crossEntropyLoss : Tensor2 → List Int → Rat

/-- Helper for `numpy.argmax`: scan the remaining entries, keeping the index of
the first strictly greatest value seen so far. -/
def argmaxFrom : List Rat → Nat → Nat → Rat → Nat
  | [], _, besti, _ => besti
  | x :: rest, i, besti, bestv =>
      if bestv < x then argmaxFrom rest (i + 1) i x
      else argmaxFrom rest (i + 1) besti bestv

/-- The function `numpy.argmax` on a 1-d array: index of the first maximal entry (numpy
raises on an empty array; callers guard emptiness separately). -/
def numpyArgmax : List Rat → Nat
  | [] => 0
  | x :: rest => argmaxFrom rest 1 0 x

/-- The values a `SequenceClassifier` output dictionary can hold. -/
inductive OutVal where
  | tensor (t : Tensor2)
  | scalar (r : Rat)
  | mapStr (m : List (String × Rat))
  | str (s : String)
deriving DecidableEq, Repr

/-- An output dictionary: an insertion-ordered association list, like a Python
`dict`. -/
abbrev OutputDict := List (String × OutVal)

/-- Python `d[k]` lookup; `none` models `KeyError`. -/
def dictGet (d : OutputDict) (k : String) : Option OutVal :=
  (d.find? (fun p => p.1 = k)).map (fun p => p.2)

/-- Python `d[k] = v` assignment: overwrite in place when the key exists, otherwise
append (Python `dict` insertion order). -/
def dictSet (d : OutputDict) (k : String) (v : OutVal) : OutputDict :=
  if d.any (fun p => p.1 = k) then
    d.map (fun p => if p.1 = k then (k, v) else p)
  else d ++ [(k, v)]

/-- The `CategoricalAccuracy` metric's state: running correct and total counts. -/
structure CategoricalAccuracy where
  correct_count : Rat
  total_count : Rat
deriving DecidableEq, Repr

/-- The metric update `CategoricalAccuracy.__call__(predictions, gold_labels)`, modelled: per
batch row, the top-1 prediction (argmax of the logits row) is compared with the
gold label; counts are accumulated. -/
def CategoricalAccuracy.update (acc : CategoricalAccuracy) (predictions : Tensor2)
    (gold : IntTensor) : CategoricalAccuracy :=
  let golds : List Int := match gold with | .dim1 xs => xs | .dim2 t => t.flatten
  let preds : List Nat := predictions.map numpyArgmax
  let pairs := preds.zip golds
  { correct_count := acc.correct_count +
      ((pairs.filter (fun p => (p.1 : Int) = p.2)).length : Rat),
    total_count := acc.total_count + (pairs.length : Rat) }

/-- The call `CategoricalAccuracy.get_metric(reset)`: the current accuracy, and the
state after the call (zeroed when `reset` is set). -/
def CategoricalAccuracy.get_metric (acc : CategoricalAccuracy) (reset : Bool) :
    Rat × CategoricalAccuracy :=
  let accuracy := if acc.total_count = 0 then 0 else acc.correct_count / acc.total_count
  (accuracy, if reset then ⟨0, 0⟩ else acc)

/-- The Python exceptions the embedded code can raise. -/
inductive PyError where
  | attributeError (msg : String)
  | configurationError (msg : String)
  | keyError (msg : String)
  | indexError (msg : String)
  | valueError (msg : String)
deriving DecidableEq, Repr

/-- The `SequenceClassifier` model state after `__init__`: the stored
components and the mutable accuracy-metric state.  The `loss` field is
`self._loss` (set to `torch.nn.CrossEntropyLoss()` by `__init__`); the
regularizer is stored by the framework base class and never read here. -/
structure SequenceClassifier where
  vocab : Vocabulary
  text_field_embedder : TextFieldEmbedder
  num_classes : Nat
  encoder : Seq2VecEncoder
  projection_layer : Linear
  loss : Tensor2 → List Int → Rat
  accuracy : CategoricalAccuracy

/-- The constructor `SequenceClassifier.__init__`.  Here `freshLinear in out` stands for
`torch.nn.Linear(in, out)`'s randomly initialised parameters and
`initializerApply` for the `InitializerApplicator` re-initialising the model's
parameters (the projection layer is the only parameterised module the
embedding exposes).  An `encoder` of `none` models passing `encoder=None`:
the constructor then dereferences `None` at `self.encoder.get_output_dim()`
(an `AttributeError`) before the dimension check is reached. -/
def SequenceClassifier.init (torch : Torch) (freshLinear : Nat → Nat → Linear)
    (initializerApply : Linear → Linear) (vocab : Vocabulary)
    (text_field_embedder : TextFieldEmbedder) (encoder : Option Seq2VecEncoder) :
    Except PyError SequenceClassifier :=
  let num_classes := vocab.get_vocab_size
  match encoder with
  | none => .error (.attributeError "NoneType object has no attribute get_output_dim")
  | some enc =>
      let projection_layer := freshLinear enc.get_output_dim num_classes
      if text_field_embedder.get_output_dim ≠ enc.get_input_dim then
        .error (.configurationError
          "The output dimension of the text_field_embedder must match the input dimension of the sequence encoder.")
      else
        .ok { vocab := vocab
              text_field_embedder := text_field_embedder
              num_classes := num_classes
              encoder := enc
              projection_layer := initializerApply projection_layer
              loss := torch.crossEntropyLoss
              accuracy := ⟨0, 0⟩ }

/-- The method `SequenceClassifier.forward(tokens, label)`: returns the output dictionary
and the accuracy-metric state after the call (the only state `forward`
mutates). -/
def SequenceClassifier.forward (torch : Torch) (m : SequenceClassifier)
    (tokens : TokenDict) (label : Option LongTensor2) :
    OutputDict × CategoricalAccuracy :=
  let embedded_text_input := m.text_field_embedder.run tokens
  let mask := get_text_field_mask tokens
  let encoded_text := m.encoder.run embedded_text_input mask
  let logits := m.projection_layer.apply encoded_text
  let class_probabilities := softmax torch.exp logits
  let output_dict : OutputDict :=
    [("logits", .tensor logits), ("class_probabilities", .tensor class_probabilities)]
  match label with
  | none => (output_dict, m.accuracy)
  | some lab =>
      let lossValue := m.loss logits (viewFlatten lab)
      (dictSet output_dict "loss" (.scalar lossValue),
       m.accuracy.update logits (squeezeLast lab))

/-- The composition `forward` computes its logits from: embed, mask, encode,
project.  Used only to state theorems; `forward` inlines the same chain. -/
def SequenceClassifier.computeLogits (m : SequenceClassifier) (tokens : TokenDict) : Tensor2 :=
  m.projection_layer.apply
    (m.encoder.run (m.text_field_embedder.run tokens) (get_text_field_mask tokens))

/-- The loop `for i, prob in enumerate(all_predictions[0])` of `decode`,
started at index `i`: pair each probability with the label string at its
index, raising `KeyError` on an out-of-range index. -/
def mapProbsFrom (v : Vocabulary) : List Rat → Nat → Except PyError (List (String × Rat))
  | [], _ => .ok []
  | p :: rest, i =>
      match v.get_token_from_index i with
      | none => .error (.keyError (toString i))
      | some label_key =>
          match mapProbsFrom v rest (i + 1) with
          | .error e => .error e
          | .ok tail => .ok ((label_key, p) :: tail)

/-- The method `SequenceClassifier.decode(output_dict)`: reads `class_probabilities`,
adds `probabilities_by_class` (labels of the first batch element's
probabilities) and `max_label` (the label at `numpy.argmax` over the whole
flattened array). -/
def SequenceClassifier.decode (m : SequenceClassifier) (output_dict : OutputDict) :
    Except PyError OutputDict :=
  match dictGet output_dict "class_probabilities" with
  | none => .error (.keyError "class_probabilities")
  | some (.scalar _) => .error (.indexError "0-d array cannot be indexed")
  | some (.mapStr _) => .error (.indexError "not an array")
  | some (.str _) => .error (.indexError "not an array")
  | some (.tensor all_predictions) =>
      match all_predictions with
      | [] => .error (.indexError "index 0 is out of bounds for axis 0 with size 0")
      | first :: _ =>
          match mapProbsFrom m.vocab first 0 with
          | .error e => .error e
          | .ok output_map_probs =>
              let d1 := dictSet output_dict "probabilities_by_class" (.mapStr output_map_probs)
              let flat := all_predictions.flatten
              if flat.isEmpty then
                .error (.valueError "attempt to get argmax of an empty sequence")
              else
                let argmax_i := numpyArgmax flat
                match m.vocab.get_token_from_index argmax_i with
                | none => .error (.keyError (toString argmax_i))
                | some label => .ok (dictSet d1 "max_label" (.str label))

/-- The method `SequenceClassifier.get_metrics(reset)`: the returned dictionary and the
accuracy-metric state after the call. -/
def SequenceClassifier.get_metrics (m : SequenceClassifier) (reset : Bool) :
    List (String × Rat) × CategoricalAccuracy :=
  let r := m.accuracy.get_metric reset
  ([("accuracy", r.1)], r.2)

/-- The result of popping and building `from_params`' sub-components: the
framework sub-constructors (`TextFieldEmbedder.from_params`,
`Seq2VecEncoder.from_params`, `InitializerApplicator.from_params`) are
abstracted to their results.  `encoder = none` models a params dictionary with
no `"encoder"` key, for which `params.pop("encoder", None)` yields `None`. -/
structure Params where
  text_field_embedder : TextFieldEmbedder
  encoder : Option Seq2VecEncoder
  initializer : Linear → Linear

/-- The classmethod `SequenceClassifier.from_params(vocab, params)`. -/
def SequenceClassifier.from_params (torch : Torch) (freshLinear : Nat → Nat → Linear)
    (vocab : Vocabulary) (params : Params) : Except PyError SequenceClassifier :=
  let text_field_embedder := params.text_field_embedder
  let encoder := params.encoder
  SequenceClassifier.init torch freshLinear params.initializer vocab
    text_field_embedder encoder

/-- The model classes this repository defines. -/
inductive ModelClass where
  | sequenceClassifier
deriving DecidableEq, Repr

/-- The framework's model registry after this file is imported: the effect of
the `@Model.register("sequence_classifier")` decorator on `SequenceClassifier`. -/
def modelRegistry : List (String × ModelClass) :=
  [("sequence_classifier", ModelClass.sequenceClassifier)]

/-! Concrete component instances, used to witness the theorems below. -/

/-- A concrete `Torch` bundle: identity in place of `exp`, the zero loss. -/
def torch0 : Torch := ⟨fun x => x, fun _ _ => 0⟩

/-- A concrete fresh `Linear` of the requested shape (all-zero parameters). -/
def freshLinear0 : Nat → Nat → Linear :=
  fun i o => ⟨List.replicate o (List.replicate i 0), List.replicate o 0⟩

/-- A concrete two-label vocabulary. -/
def vocab0 : Vocabulary := ⟨["neg", "pos"]⟩

/-- A concrete embedder with output dimension 3. -/
def tfe0 : TextFieldEmbedder := ⟨fun _ => [], 3⟩

/-- A concrete encoder with input dimension 3 and output dimension 4,
returning one batch row of 4 zeros. -/
def enc0 : Seq2VecEncoder := ⟨fun _ _ => [List.replicate 4 0], 3, 4⟩

/-- The model `SequenceClassifier.init torch0 freshLinear0 id vocab0 tfe0
(some enc0)` constructs. -/
def model0 : SequenceClassifier :=
  { vocab := vocab0
    text_field_embedder := tfe0
    num_classes := 2
    encoder := enc0
    projection_layer := freshLinear0 4 2
    loss := torch0.crossEntropyLoss
    accuracy := ⟨0, 0⟩ }

/-- A concrete params record whose dictionary has no `"encoder"` key. -/
def params0 : Params := ⟨tfe0, none, id⟩

/-! Helper lemmas. -/

/-- The scan behind `numpy.argmax` returns an in-range index. -/
theorem argmaxFrom_lt_of_lt (rest : List Rat) : ∀ (i besti : Nat) (bestv : Rat),
    besti < i → argmaxFrom rest i besti bestv < i + rest.length := by
  induction rest with
  | nil => intro i besti bestv h; simpa [argmaxFrom] using h
  | cons x rest ih =>
      intro i besti bestv h
      simp only [argmaxFrom, List.length_cons]
      by_cases hc : bestv < x
      · rw [if_pos hc]
        have := ih (i + 1) i x (Nat.lt_succ_self i)
        omega
      · rw [if_neg hc]
        have := ih (i + 1) besti bestv (Nat.lt_succ_of_lt h)
        omega

/-- Applied to a nonempty array, `numpy.argmax` returns an index into it. -/
theorem numpyArgmax_lt_length (xs : List Rat) (h : xs ≠ []) :
    numpyArgmax xs < xs.length := by
  match xs, h with
  | x :: rest, _ =>
      simpa [numpyArgmax, List.length_cons, Nat.add_comm] using
        argmaxFrom_lt_of_lt rest 1 0 x Nat.zero_lt_one

/-- The `enumerate` loop of `decode` succeeds and pairs labels with
probabilities positionally when every index it visits is in range. -/
theorem mapProbsFrom_ok (v : Vocabulary) : ∀ (probs : List Rat) (i : Nat),
    i + probs.length ≤ v.labels.length →
    mapProbsFrom v probs i = .ok ((v.labels.drop i).zip probs) := by
  intro probs
  induction probs with
  | nil => intro i _; simp [mapProbsFrom]
  | cons p rest ih =>
      intro i h
      have h' : i + rest.length + 1 ≤ v.labels.length := by
        simp only [List.length_cons] at h; omega
      have hi : i < v.labels.length := by omega
      have hget : v.get_token_from_index i = some v.labels[i] := by
        simp [Vocabulary.get_token_from_index, List.getElem?_eq_getElem hi]
      have htail : mapProbsFrom v rest (i + 1) = .ok ((v.labels.drop (i + 1)).zip rest) := by
        apply ih; omega
      have hdrop : v.labels.drop i = v.labels[i] :: v.labels.drop (i + 1) :=
        List.drop_eq_getElem_cons hi
      rw [hdrop]
      simp only [mapProbsFrom, hget, htail, List.zip_cons_cons]

/-- Assigning a fresh key appends it (Python `dict` insertion order). -/
theorem dictSet_not_mem (d : OutputDict) (k : String) (v : OutVal)
    (h : dictGet d k = none) : dictSet d k v = d ++ [(k, v)] := by
  have hfind : d.find? (fun p => p.1 = k) = none := by
    cases hf : d.find? (fun p => p.1 = k) with
    | none => rfl
    | some p => rw [dictGet, hf] at h; simp at h
  have hany : d.any (fun p => decide (p.1 = k)) = false := by
    rw [List.find?_eq_none] at hfind
    rw [List.any_eq_false]
    intro p hp
    simpa using hfind p hp
  simp only [dictSet]
  rw [if_neg]
  simp [hany]

/-- Lookup ignores appended entries with different keys. -/
theorem dictGet_append_ne (d : OutputDict) (l : OutputDict) (k : String)
    (h : ∀ p ∈ l, p.1 ≠ k) : dictGet (d ++ l) k = dictGet d k := by
  rw [dictGet, dictGet, List.find?_append]
  cases hf : d.find? (fun p => p.1 = k) with
  | some p => simp
  | none =>
      have : l.find? (fun p => p.1 = k) = none := by
        rw [List.find?_eq_none]
        intro p hp
        simpa using h p hp
      simp [this]

/-- Lookup of a key just appended finds its value. -/
theorem dictGet_append_last (d : OutputDict) (k : String) (v : OutVal)
    (h : dictGet d k = none) : dictGet (d ++ [(k, v)]) k = some v := by
  have hfind : d.find? (fun p => p.1 = k) = none := by
    cases hf : d.find? (fun p => p.1 = k) with
    | none => rfl
    | some p => rw [dictGet, hf] at h; simp at h
  rw [dictGet, List.find?_append, hfind]
  simp [List.find?]

/-! Claim theorems. -/

/-- C1: for every input tokens dictionary, `forward` on the unlabeled path is
the fixed composition embed → mask → encode → project → softmax, and the
returned dictionary's `logits` and `class_probabilities` entries are exactly
these values (and the metric state is untouched): there is no other control
flow. -/
theorem C1_forward_fixed_composition (torch : Torch) (m : SequenceClassifier)
    (tokens : TokenDict) :
    SequenceClassifier.forward torch m tokens none =
      ([("logits", OutVal.tensor (m.projection_layer.apply (m.encoder.run
            (m.text_field_embedder.run tokens) (get_text_field_mask tokens)))),
        ("class_probabilities", OutVal.tensor (softmax torch.exp
            (m.projection_layer.apply (m.encoder.run (m.text_field_embedder.run tokens)
              (get_text_field_mask tokens)))))],
       m.accuracy) := rfl

/-- C2: construction succeeds exactly when the embedder's output dimension
equals the encoder's input dimension, and on a mismatch the failure is the
`ConfigurationError` of the dimension check — the constructor's only check. -/
theorem C2_init_configuration_check (torch : Torch) (freshLinear : Nat → Nat → Linear)
    (initializerApply : Linear → Linear) (vocab : Vocabulary)
    (tfe : TextFieldEmbedder) (enc : Seq2VecEncoder) :
    ((∃ m, SequenceClassifier.init torch freshLinear initializerApply vocab tfe
        (some enc) = .ok m) ↔ tfe.get_output_dim = enc.get_input_dim) ∧
    (tfe.get_output_dim ≠ enc.get_input_dim →
      SequenceClassifier.init torch freshLinear initializerApply vocab tfe (some enc) =
        .error (.configurationError
          "The output dimension of the text_field_embedder must match the input dimension of the sequence encoder.")) := by
  unfold SequenceClassifier.init
  by_cases h : tfe.get_output_dim = enc.get_input_dim <;> simp [h]

/-- Witness for C2 at concrete components whose dimensions match (3 = 3):
construction succeeds. -/
theorem C2_witness :
    (∃ m, SequenceClassifier.init torch0 freshLinear0 id vocab0 tfe0
        (some enc0) = .ok m) ↔ tfe0.get_output_dim = enc0.get_input_dim :=
  (C2_init_configuration_check torch0 freshLinear0 id vocab0 tfe0 enc0).1

/-- C7: `get_metrics` returns the dictionary with the single key `accuracy`,
whose value is the `CategoricalAccuracy` metric's current value, the reset
flag being passed through to the metric unchanged. -/
theorem C7_get_metrics_single_key (m : SequenceClassifier) (reset : Bool) :
    SequenceClassifier.get_metrics m reset =
      ([("accuracy", (m.accuracy.get_metric reset).1)],
       (m.accuracy.get_metric reset).2) := rfl

/-- C8: the framework's model registry maps the name `sequence_classifier`
to the `SequenceClassifier` class. -/
theorem C8_registered_name :
    (modelRegistry.find? (fun p => p.1 = "sequence_classifier")).map (fun p => p.2)
      = some ModelClass.sequenceClassifier := rfl

/-- C9: `forward` without a label leaves the accuracy-metric state unchanged,
so `get_metrics` returns the same value before and after such a call; the
state is updated exactly by the labeled calls. -/
theorem C9_unlabeled_forward_preserves_metric (torch : Torch)
    (m : SequenceClassifier) (tokens : TokenDict) (reset : Bool) :
    (SequenceClassifier.forward torch m tokens none).2 = m.accuracy ∧
    SequenceClassifier.get_metrics
        { m with accuracy := (SequenceClassifier.forward torch m tokens none).2 } reset
      = SequenceClassifier.get_metrics m reset ∧
    (∀ lab : LongTensor2,
      (SequenceClassifier.forward torch m tokens (some lab)).2
        = m.accuracy.update (m.computeLogits tokens) (squeezeLast lab)) :=
  ⟨rfl, rfl, fun _ => rfl⟩

/-- C10: when the params have no `encoder` key, `from_params` passes
`encoder = None` to the constructor, which fails with the `AttributeError`
from dereferencing `None`, not with a `ConfigurationError`. -/
theorem C10_from_params_missing_encoder (torch : Torch)
    (freshLinear : Nat → Nat → Linear) (vocab : Vocabulary) (params : Params)
    (h : params.encoder = none) :
    SequenceClassifier.from_params torch freshLinear vocab params =
      .error (.attributeError "NoneType object has no attribute get_output_dim") ∧
    (∀ msg, SequenceClassifier.from_params torch freshLinear vocab params ≠
      .error (.configurationError msg)) := by
  unfold SequenceClassifier.from_params SequenceClassifier.init
  rw [h]
  simp

/-- Witness for C10: the concrete `params0` has no encoder, and `from_params`
fails with the `AttributeError`. -/
theorem C10_witness :
    SequenceClassifier.from_params torch0 freshLinear0 vocab0 params0 =
      .error (.attributeError "NoneType object has no attribute get_output_dim") :=
  (C10_from_params_missing_encoder torch0 freshLinear0 vocab0 params0 rfl).1

/-- C3: the output dictionary has a `loss` entry exactly when a label is
given; that entry is the stored loss function (`torch.nn.CrossEntropyLoss`,
as `__init__` sets it) applied to the logits and the flattened gold labels;
without a label the dictionary has exactly the keys `logits` and
`class_probabilities`. -/
theorem C3_loss_exactly_when_labeled (torch : Torch) (m : SequenceClassifier)
    (tokens : TokenDict) :
    ((SequenceClassifier.forward torch m tokens none).1.map Prod.fst
        = ["logits", "class_probabilities"]) ∧
    (∀ lab : LongTensor2,
      (SequenceClassifier.forward torch m tokens (some lab)).1.map Prod.fst
          = ["logits", "class_probabilities", "loss"] ∧
      dictGet (SequenceClassifier.forward torch m tokens (some lab)).1 "loss"
          = some (.scalar (m.loss (m.computeLogits tokens) (viewFlatten lab)))) ∧
    (∀ (freshLinear : Nat → Nat → Linear) (initializerApply : Linear → Linear)
        (vocab : Vocabulary) (tfe : TextFieldEmbedder) (enc : Option Seq2VecEncoder)
        (m' : SequenceClassifier),
      SequenceClassifier.init torch freshLinear initializerApply vocab tfe enc
          = .ok m' →
      m'.loss = torch.crossEntropyLoss) := by
  refine ⟨rfl, fun lab => ⟨rfl, rfl⟩, ?_⟩
  intro freshLinear initializerApply vocab tfe enc m' h
  match enc with
  | none => simp [SequenceClassifier.init] at h
  | some e =>
      by_cases hd : tfe.get_output_dim = e.get_input_dim
      · simp [SequenceClassifier.init, hd] at h
        subst h
        rfl
      · simp [SequenceClassifier.init, hd] at h

/-- Witness for C3: the loss the concrete constructed model stores is the
framework cross-entropy. -/
theorem C3_witness : model0.loss = torch0.crossEntropyLoss :=
  (C3_loss_exactly_when_labeled torch0 model0 []).2.2 freshLinear0 id vocab0 tfe0
    (some enc0) model0 rfl

/-- C5: `decode`'s `max_label` index is `numpy.argmax` over the whole
flattened `class_probabilities` array: with batch dimension 1 it is always
below the number of labels, but for an array with batch dimension 2 it
reaches index 3 with only 2 labels, and `decode` then fails its vocabulary
lookup. -/
theorem C5_argmax_over_flattened (first : List Rat) (numLabels : Nat)
    (h1 : first.length = numLabels) (h2 : 0 < numLabels) :
    numpyArgmax (List.flatten [first]) < numLabels ∧
    (1 < ([[0, 0], [0, 1]] : Tensor2).length ∧
      (∀ row ∈ ([[0, 0], [0, 1]] : Tensor2), row.length = 2) ∧
      2 ≤ numpyArgmax (List.flatten ([[0, 0], [0, 1]] : Tensor2)) ∧
      SequenceClassifier.decode model0
          [("class_probabilities", .tensor [[0, 0], [0, 1]])]
        = .error (.keyError "3")) := by
  constructor
  · have hne : first ≠ [] := by
      intro hf; rw [hf] at h1; simp at h1; omega
    have := numpyArgmax_lt_length first hne
    simpa [h1] using this
  · refine ⟨by decide, by decide, by decide, rfl⟩

/-- Witness for C5 at a concrete singleton batch of two probabilities. -/
theorem C5_witness :
    ([(0 : Rat), 1].length = 2 ∧ 0 < 2) ∧
    numpyArgmax (List.flatten [[(0 : Rat), 1]]) < 2 :=
  ⟨⟨rfl, by decide⟩, (C5_argmax_over_flattened [0, 1] 2 rfl (by decide)).1⟩

/-- C6: after construction the projection layer maps vectors of the encoder's
output size to vectors with one entry per label of the `labels` namespace, so
every `forward` call's logits and class probabilities have exactly
`vocab.get_vocab_size` entries per batch element, and the encoded
representation fed to the projection is a fixed-size (encoder output
dimension) vector per batch element regardless of sequence length. -/
theorem C6_projection_and_output_shapes (torch : Torch)
    (freshLinear : Nat → Nat → Linear) (initializerApply : Linear → Linear)
    (vocab : Vocabulary) (tfe : TextFieldEmbedder) (enc : Seq2VecEncoder)
    (m : SequenceClassifier) (x : Tensor1) (tokens : TokenDict)
    (label : Option LongTensor2)
    (hfresh : ∀ i o, (freshLinear i o).weight.length = o ∧
        (freshLinear i o).bias.length = o)
    (hinitp : ∀ l : Linear, (initializerApply l).weight.length = l.weight.length ∧
        (initializerApply l).bias.length = l.bias.length)
    (henc : ∀ (t : Tensor3) (mk : LongTensor2),
        ((enc.run t mk).all (fun row => row.length = enc.get_output_dim)) = true)
    (hok : SequenceClassifier.init torch freshLinear initializerApply vocab tfe
        (some enc) = .ok m)
    (hx : x.length = enc.get_output_dim) :
    (m.projection_layer.applyRow x).length = vocab.get_vocab_size ∧
    dictGet (SequenceClassifier.forward torch m tokens label).1 "logits"
        = some (.tensor (m.computeLogits tokens)) ∧
    dictGet (SequenceClassifier.forward torch m tokens label).1 "class_probabilities"
        = some (.tensor (softmax torch.exp (m.computeLogits tokens))) ∧
    ((m.computeLogits tokens).all
        (fun row => row.length = vocab.get_vocab_size)) = true ∧
    ((softmax torch.exp (m.computeLogits tokens)).all
        (fun row => row.length = vocab.get_vocab_size)) = true ∧
    ((m.encoder.run (m.text_field_embedder.run tokens) (get_text_field_mask tokens)).all
        (fun row => row.length = enc.get_output_dim)) = true := by
  by_cases hd : tfe.get_output_dim = enc.get_input_dim
  case neg => simp [SequenceClassifier.init, hd] at hok
  case pos =>
  simp [SequenceClassifier.init, hd] at hok
  subst hok
  have hlen : ∀ y : Tensor1,
      (((initializerApply (freshLinear enc.get_output_dim
          vocab.get_vocab_size))).applyRow y).length = vocab.get_vocab_size := by
    intro y
    obtain ⟨hw, hb⟩ := hinitp (freshLinear enc.get_output_dim vocab.get_vocab_size)
    obtain ⟨hw0, hb0⟩ := hfresh enc.get_output_dim vocab.get_vocab_size
    simp [Linear.applyRow, List.length_zip, hw, hb, hw0, hb0]
  have hsr : ∀ xs : List Rat, (softmaxRow torch.exp xs).length = xs.length := by
    intro xs; simp [softmaxRow]
  refine ⟨hlen x, ?_, ?_, ?_, ?_, ?_⟩
  · cases label <;> rfl
  · cases label <;> rfl
  · simp only [SequenceClassifier.computeLogits, Linear.apply, List.all_eq_true]
    intro row hrow
    obtain ⟨a, _, ha⟩ := List.mem_map.mp hrow
    simpa [← ha] using hlen a
  · simp only [SequenceClassifier.computeLogits, softmax, Linear.apply,
      List.all_eq_true]
    intro row hrow
    obtain ⟨a, ha, ha2⟩ := List.mem_map.mp hrow
    obtain ⟨b, _, hb2⟩ := List.mem_map.mp ha
    subst ha2
    simp only [hsr]
    simpa [← hb2] using hlen b
  · exact henc _ _

/-- Witness for C6: the concrete model built from `freshLinear0`, `vocab0`,
`tfe0` and `enc0`, on an empty tokens dictionary and a zero input row. -/
theorem C6_witness :
    (model0.projection_layer.applyRow (List.replicate 4 0)).length
        = vocab0.get_vocab_size ∧
    dictGet (SequenceClassifier.forward torch0 model0 [] none).1 "logits"
        = some (.tensor (model0.computeLogits [])) ∧
    dictGet (SequenceClassifier.forward torch0 model0 [] none).1 "class_probabilities"
        = some (.tensor (softmax torch0.exp (model0.computeLogits []))) ∧
    ((model0.computeLogits []).all
        (fun row => row.length = vocab0.get_vocab_size)) = true ∧
    ((softmax torch0.exp (model0.computeLogits [])).all
        (fun row => row.length = vocab0.get_vocab_size)) = true ∧
    ((model0.encoder.run (model0.text_field_embedder.run [])
        (get_text_field_mask [])).all
        (fun row => row.length = enc0.get_output_dim)) = true :=
  C6_projection_and_output_shapes torch0 freshLinear0 id vocab0 tfe0 enc0 model0
    (List.replicate 4 0) [] none
    (fun i o => by simp [freshLinear0])
    (fun _ => ⟨rfl, rfl⟩)
    (fun _ _ => rfl)
    rfl
    rfl

/-- C4: on an output dictionary whose `class_probabilities` entry is a batch
of per-label probabilities (and whose argmax lookup is in range), `decode`
leaves the existing `logits` and `class_probabilities` entries unchanged and
adds exactly two entries: `probabilities_by_class`, pairing each label of the
`labels` namespace with its probability from the first batch element, and
`max_label`, the label at the argmax probability index. -/
theorem C4_decode_adds_exactly_two_entries (m : SequenceClassifier)
    (d : OutputDict) (first : List Rat) (rest : Tensor2) (maxLab : String)
    (hget : dictGet d "class_probabilities" = some (.tensor (first :: rest)))
    (hlen : first.length = m.vocab.get_vocab_size)
    (hpos : 0 < m.vocab.get_vocab_size)
    (hmax : m.vocab.get_token_from_index (numpyArgmax (first :: rest).flatten)
        = some maxLab)
    (hnoP : dictGet d "probabilities_by_class" = none)
    (hnoM : dictGet d "max_label" = none) :
    SequenceClassifier.decode m d =
      .ok (d ++ [("probabilities_by_class", .mapStr (m.vocab.labels.zip first)),
                 ("max_label", .str maxLab)]) ∧
    dictGet (d ++ [("probabilities_by_class", .mapStr (m.vocab.labels.zip first)),
                   ("max_label", .str maxLab)]) "logits"
        = dictGet d "logits" ∧
    dictGet (d ++ [("probabilities_by_class", .mapStr (m.vocab.labels.zip first)),
                   ("max_label", .str maxLab)]) "class_probabilities"
        = dictGet d "class_probabilities" := by
  have hmap : mapProbsFrom m.vocab first 0 = .ok (m.vocab.labels.zip first) := by
    have h0 : 0 + first.length ≤ m.vocab.labels.length := by
      simp only [Vocabulary.get_vocab_size] at hlen; omega
    simpa using mapProbsFrom_ok m.vocab first 0 h0
  have hne : (first :: rest).flatten.isEmpty = false := by
    cases hf : first with
    | nil => rw [hf] at hlen; simp at hlen; omega
    | cons f0 fr => simp [List.flatten]
  have hfresh : ∀ p ∈ [("probabilities_by_class",
        OutVal.mapStr (m.vocab.labels.zip first)), ("max_label", OutVal.str maxLab)],
      p.1 ≠ "logits" := by
    intro p hp
    rcases List.mem_cons.mp hp with h | h
    · subst h; exact show ("probabilities_by_class" : String) ≠ "logits" by decide
    · rcases List.mem_cons.mp h with h2 | h2
      · subst h2; exact show ("max_label" : String) ≠ "logits" by decide
      · simp at h2
  have hfresh2 : ∀ p ∈ [("probabilities_by_class",
        OutVal.mapStr (m.vocab.labels.zip first)), ("max_label", OutVal.str maxLab)],
      p.1 ≠ "class_probabilities" := by
    intro p hp
    rcases List.mem_cons.mp hp with h | h
    · subst h
      exact show ("probabilities_by_class" : String) ≠ "class_probabilities" by decide
    · rcases List.mem_cons.mp h with h2 | h2
      · subst h2
        exact show ("max_label" : String) ≠ "class_probabilities" by decide
      · simp at h2
  have hd1 : dictSet d "probabilities_by_class"
      (.mapStr (m.vocab.labels.zip first))
      = d ++ [("probabilities_by_class", .mapStr (m.vocab.labels.zip first))] :=
    dictSet_not_mem d _ _ hnoP
  have hnoM1 : dictGet (d ++ [("probabilities_by_class",
      OutVal.mapStr (m.vocab.labels.zip first))]) "max_label" = none := by
    rw [dictGet_append_ne d _ _ ?_]
    · exact hnoM
    · intro p hp
      rcases List.mem_cons.mp hp with h | h
      · subst h
        exact show ("probabilities_by_class" : String) ≠ "max_label" by decide
      · simp at h
  have hd2 : dictSet (d ++ [("probabilities_by_class",
        OutVal.mapStr (m.vocab.labels.zip first))]) "max_label" (.str maxLab)
      = d ++ [("probabilities_by_class", .mapStr (m.vocab.labels.zip first)),
              ("max_label", .str maxLab)] := by
    rw [dictSet_not_mem _ _ _ hnoM1, List.append_assoc]
    rfl
  refine ⟨?_, ?_, ?_⟩
  · simp only [SequenceClassifier.decode, hget, hmap, hne, hd1, hd2,
      Bool.false_eq_true, if_false, hmax]
  · exact dictGet_append_ne d _ _ hfresh
  · exact dictGet_append_ne d _ _ hfresh2

/-- Witness for C4: a concrete output dictionary with logits and a 1 × 2
probability batch, decoded by the concrete two-label model. -/
theorem C4_witness :
    SequenceClassifier.decode model0
        [("logits", .tensor [[1, 2]]),
         ("class_probabilities", .tensor [[0, 1]])] =
      .ok ([("logits", .tensor [[1, 2]]),
            ("class_probabilities", .tensor [[0, 1]])] ++
        [("probabilities_by_class", .mapStr (vocab0.labels.zip [0, 1])),
         ("max_label", .str "pos")]) :=
  (C4_decode_adds_exactly_two_entries model0
    [("logits", .tensor [[1, 2]]), ("class_probabilities", .tensor [[0, 1]])]
    [0, 1] [] "pos" rfl rfl (by decide) (by decide) rfl rfl).1

end Recognai
